import Mathlib

/-!
Verification of `add_file_to_xcode.py` (the single script of this repository).

The script loads an Xcode project manifest through the external `pbxproj`
library, selects a build target (preferring one named "PodPeace", falling
back to the first target), resolves the nested group chain
PodPeace → Views → Episode via `get_or_create_group`, registers a fixed
file path with `add_file`, and saves the manifest when registration
succeeded.

The embedding below models one run of the script body (everything after the
`load` call) as a pure function producing a trace of observable events:
printed lines, `get_or_create_group` calls, the `add_file` call, and the
`save` call.  The external library is abstracted as a record of functions
over an arbitrary type of group handles; the outcome of `save` (normal
return or raised exception) is an explicit parameter, since the script
contains no handler for it.
-/

namespace Podcash

/-- A build target of the manifest; the script only reads its `name`
attribute (spec section 3). -/
structure Target where
  name : String
deriving DecidableEq, Repr

/-- The surface of the external `pbxproj` library that the script consumes,
abstracted over the type `G` of group handles: `get_or_create_group` and
`add_file`.  Within one run the script applies `get_or_create_group` to three
distinct name/parent pairs and `add_file` once, so a functional abstraction
is adequate for the script-level claims; a stateful model of
`get_or_create_group` appears further below for the delegated reuse
invariant. -/
structure Lib (G : Type) where
  getOrCreateGroup : String → Option G → G
  addFile : String → G → String → Bool

/-- An observable event of one run: a printed line, a
`get_or_create_group` call (name, parent, returned group), the `add_file`
call (path, parent group, target name, truthiness of the result), or the
`save` call together with its outcome (`Except.error` models a raised
exception). -/
inductive Event (G E : Type) where
  | print (s : String)
  | getGroup (name : String) (parent : Option G) (result : G)
  | addFile (path : String) (parent : G) (targetName : String) (result : Bool)
  | save (result : Except E Unit)

/-- The fixed file path registered by the script (line 11 of the source). -/
def file_path : String := "PodPeace/Views/Episode/EpisodeDetailView.swift"

/-- The target-selection loop (source lines 14–19): the first target whose
name equals the literal "PodPeace", if any. -/
def findPodPeace : List Target → Option Target
  | [] => none
  | t :: ts => if t.name = "PodPeace" then some t else findPodPeace ts

/-- The selected target after the loop and the fallback assignment (source
lines 14–22): the first target named "PodPeace" when one exists, otherwise
the first target of the list, otherwise none. -/
def mainTarget (targets : List Target) : Option Target :=
  match findPodPeace targets with
  | some t => some t
  | none => targets.head?

/-- The fallback announcement (source lines 21–23): printed exactly when the
loop found no "PodPeace" target but the target list is non-empty. -/
def fallbackPrints {G E : Type} (targets : List Target) : List (Event G E) :=
  match findPodPeace targets, targets with
  | none, t :: _ => [Event.print ("Using target: " ++ t.name)]
  | _, _ => []

/-- The parent group passed to `add_file` (source line 30): the group
obtained for "Episode" under the group obtained for "Views" under the group
obtained for "PodPeace" at top level. -/
def groupChain {G : Type} (lib : Lib G) : G :=
  lib.getOrCreateGroup "Episode"
    (some (lib.getOrCreateGroup "Views"
      (some (lib.getOrCreateGroup "PodPeace" none))))

/-- The library calls issued by the registration step (source lines 28–32),
in Python evaluation order: the three nested `get_or_create_group` calls,
innermost first, then the `add_file` call. -/
def callEvents {G E : Type} (lib : Lib G) (targetName : String) :
    List (Event G E) :=
  [Event.getGroup "PodPeace" none (lib.getOrCreateGroup "PodPeace" none),
   Event.getGroup "Views" (some (lib.getOrCreateGroup "PodPeace" none))
     (lib.getOrCreateGroup "Views" (some (lib.getOrCreateGroup "PodPeace" none))),
   Event.getGroup "Episode"
     (some (lib.getOrCreateGroup "Views" (some (lib.getOrCreateGroup "PodPeace" none))))
     (groupChain lib),
   Event.addFile file_path (groupChain lib) targetName
     (lib.addFile file_path (groupChain lib) targetName)]

/-- One run of the script body after `load` (source lines 14–41): the trace
of events, together with `some e` when the run terminates abruptly because
`save` raised `e` (source line 36 has no surrounding handler).  The branches
follow the source: a selected target leads to group resolution and
`add_file`; a truthy result leads to the added-file print, the `save` call,
and, when `save` returns, the saved print; a falsy result leads to the
may-already-exist print; no target leads to the no-target print. -/
def runScript {G E : Type} (lib : Lib G) (saveRes : Except E Unit)
    (targets : List Target) : List (Event G E) × Option E :=
  match mainTarget targets with
  | some mt =>
    if lib.addFile file_path (groupChain lib) mt.name then
      match saveRes with
      | Except.ok u =>
        (fallbackPrints targets ++ callEvents lib mt.name ++
          [Event.print ("Successfully added " ++ file_path ++ " to project"),
           Event.save (Except.ok u),
           Event.print "Project saved successfully"], none)
      | Except.error e =>
        (fallbackPrints targets ++ callEvents lib mt.name ++
          [Event.print ("Successfully added " ++ file_path ++ " to project"),
           Event.save (Except.error e)], some e)
    else
      (fallbackPrints targets ++ callEvents lib mt.name ++
        [Event.print "Failed to add file - it may already exist in the project"],
       none)
  | none => ([Event.print "No target found in the project"], none)

/-- Whether an event is the `save` call. -/
def isSave {G E : Type} : Event G E → Bool
  | Event.save _ => true
  | _ => false

/-- Whether an event is a `save` call that returned successfully.  The
script mutates the on-disk manifest only through a successful `save`
(spec section 4.1, side effects), so a trace without such an event leaves
the on-disk manifest unchanged. -/
def savedOk {G E : Type} : Event G E → Bool
  | Event.save (Except.ok _) => true
  | _ => false

/-- Whether the on-disk manifest is mutated during a run: a successful
`save` call occurs in the trace. -/
def diskMutated {G E : Type} (trace : List (Event G E)) : Bool :=
  trace.any savedOk

/-- Whether the trace records an `add_file` call with a truthy result. -/
def addFileSucceeded {G E : Type} (trace : List (Event G E)) : Bool :=
  trace.any fun ev =>
    match ev with
    | Event.addFile _ _ _ r => r
    | _ => false

/-- A concrete library instance over `Nat` group handles whose `add_file`
always succeeds; used to evaluate the theorems on concrete runs. -/
def wLib : Lib Nat where
  getOrCreateGroup := fun _ p =>
    match p with
    | none => 1
    | some g => g + 1
  addFile := fun _ _ _ => true

/-- A concrete library instance over `Nat` group handles whose `add_file`
always fails; used to evaluate the theorems on concrete runs. -/
def wLibFalse : Lib Nat where
  getOrCreateGroup := fun _ p =>
    match p with
    | none => 1
    | some g => g + 1
  addFile := fun _ _ _ => false

/-- A group node of the modelled manifest: an identifier, a name, and the
identifier of its parent group (none at top level). -/
structure Group where
  gid : Nat
  name : String
  parent : Option Nat
deriving DecidableEq, Repr

/-- The lookup predicate of the modelled `get_or_create_group`: a group with
the requested name under the requested parent. -/
def groupMatches (name : String) (parent : Option Nat) (g : Group) : Bool :=
  decide (g.name = name ∧ g.parent = parent)

/-- Modelled from the spec: the external pbxproj library (not part of this
repository) supplies `get_or_create_group(name, parent)`, which must reuse
an existing group with the given name under the given parent when one exists
and otherwise create it (spec sections 6 and 8).  The manifest's groups are
modelled as a list in insertion order; a fresh identifier is the current
list length. -/
def get_or_create_group (name : String) (parent : Option Nat)
    (s : List Group) : Group × List Group :=
  match s.find? (groupMatches name parent) with
  | some g => (g, s)
  | none => (⟨s.length, name, parent⟩, s ++ [⟨s.length, name, parent⟩])

/-- The group-resolution step of the script over the modelled library
(source line 30): PodPeace at top level, Views under it, Episode under
that; the result is the Episode group and the updated store. -/
def resolveChain (s : List Group) : Group × List Group :=
  let r1 := get_or_create_group "PodPeace" none s
  let r2 := get_or_create_group "Views" (some r1.1.gid) r1.2
  get_or_create_group "Episode" (some r2.1.gid) r2.2

lemma find?_append_some {α : Type} (p : α → Bool) (l2 : List α)
    {l1 : List α} {a : α} (h : l1.find? p = some a) :
    (l1 ++ l2).find? p = some a := by
  induction l1 with
  | nil => simp [List.find?] at h
  | cons x xs ih =>
    cases hx : p x with
    | false =>
      rw [List.cons_append]
      simp only [List.find?, hx] at h ⊢
      exact ih h
    | true =>
      rw [List.cons_append]
      simp only [List.find?, hx] at h ⊢
      exact h

lemma find?_append_none {α : Type} (p : α → Bool) (l2 : List α)
    {l1 : List α} (h : l1.find? p = none) :
    (l1 ++ l2).find? p = l2.find? p := by
  induction l1 with
  | nil => rfl
  | cons x xs ih =>
    cases hx : p x with
    | false =>
      rw [List.cons_append]
      simp only [List.find?, hx] at h ⊢
      exact ih h
    | true =>
      simp only [List.find?, hx] at h
      exact absurd h (Option.some_ne_none x)

lemma get_or_create_group_reuse (name : String) (parent : Option Nat)
    {s : List Group} {g : Group}
    (h : s.find? (groupMatches name parent) = some g) :
    get_or_create_group name parent s = (g, s) := by
  simp [get_or_create_group, h]

lemma find?_get_or_create (name : String) (parent : Option Nat)
    (s : List Group) :
    (get_or_create_group name parent s).2.find? (groupMatches name parent)
      = some (get_or_create_group name parent s).1 := by
  cases hf : s.find? (groupMatches name parent) with
  | some g => simp [get_or_create_group, hf]
  | none =>
    simp only [get_or_create_group, hf]
    rw [find?_append_none _ _ hf]
    simp [List.find?, groupMatches]

lemma get_or_create_group_extend (name : String) (parent : Option Nat)
    (s : List Group) :
    ∃ l, (get_or_create_group name parent s).2 = s ++ l := by
  cases hf : s.find? (groupMatches name parent) with
  | some g => exact ⟨[], by simp [get_or_create_group, hf]⟩
  | none => exact ⟨[⟨s.length, name, parent⟩], by simp [get_or_create_group, hf]⟩

lemma using_target_ne (s M : String) (h : M.data.head? ≠ some 'U') :
    "Using target: " ++ s ≠ M := by
  intro he
  apply h
  rw [← he]
  rfl

lemma findPodPeace_spec (l : List Target)
    (h : ∃ t ∈ l, t.name = "PodPeace") :
    ∃ t l1 l2, findPodPeace l = some t ∧ t.name = "PodPeace" ∧
      l = l1 ++ t :: l2 ∧ ∀ u ∈ l1, u.name ≠ "PodPeace" := by
  induction l with
  | nil =>
    obtain ⟨t, ht, _⟩ := h
    exact absurd ht (List.not_mem_nil t)
  | cons x xs ih =>
    by_cases hx : x.name = "PodPeace"
    · exact ⟨x, [], xs, by simp [findPodPeace, hx], hx, rfl, by simp⟩
    · obtain ⟨t, ht, htn⟩ := h
      have htxs : t ∈ xs := by
        rcases List.mem_cons.mp ht with rfl | h'
        · exact absurd htn hx
        · exact h'
      obtain ⟨t', l1, l2, hf, hn, he, hfirst⟩ := ih ⟨t, htxs, htn⟩
      refine ⟨t', x :: l1, l2, ?_, hn, by rw [he, List.cons_append], ?_⟩
      · simp [findPodPeace, hx, hf]
      · intro u hu
        rcases List.mem_cons.mp hu with rfl | h'
        · exact hx
        · exact hfirst u h'

lemma findPodPeace_none_of_no_match (l : List Target)
    (h : ∀ t ∈ l, t.name ≠ "PodPeace") : findPodPeace l = none := by
  induction l with
  | nil => rfl
  | cons x xs ih =>
    simp only [findPodPeace, h x (List.mem_cons_self x xs), if_false]
    exact ih fun t ht => h t (List.mem_cons_of_mem x ht)

lemma findPodPeace_mem {l : List Target} {t : Target}
    (h : findPodPeace l = some t) : t ∈ l ∧ t.name = "PodPeace" := by
  induction l with
  | nil => simp [findPodPeace] at h
  | cons x xs ih =>
    by_cases hx : x.name = "PodPeace"
    · simp only [findPodPeace, if_pos hx, Option.some.injEq] at h
      exact ⟨h ▸ List.mem_cons_self x xs, h ▸ hx⟩
    · simp only [findPodPeace, if_neg hx] at h
      obtain ⟨hm, hn⟩ := ih h
      exact ⟨List.mem_cons_of_mem x hm, hn⟩

lemma fallbackPrints_cases {G E : Type} (l : List Target) :
    fallbackPrints (G := G) (E := E) l = [] ∨
    ∃ t : Target, fallbackPrints (G := G) (E := E) l
      = [Event.print ("Using target: " ++ t.name)] := by
  unfold fallbackPrints
  cases hf : findPodPeace l with
  | none =>
    cases l with
    | nil => exact Or.inl rfl
    | cons t ts => exact Or.inr ⟨t, rfl⟩
  | some u => cases l <;> exact Or.inl rfl

lemma fallbackPrints_of_found {G E : Type} {l : List Target} {u : Target}
    (hf : findPodPeace l = some u) :
    fallbackPrints (G := G) (E := E) l = [] := by
  unfold fallbackPrints
  rw [hf]

lemma fallbackPrints_of_fallback {G E : Type} {t : Target} {ts : List Target}
    (hf : findPodPeace (t :: ts) = none) :
    fallbackPrints (G := G) (E := E) (t :: ts)
      = [Event.print ("Using target: " ++ t.name)] := by
  unfold fallbackPrints
  rw [hf]

lemma runScript_ok {G E : Type} (lib : Lib G) (u : Unit)
    {targets : List Target} {mt : Target}
    (hmt : mainTarget targets = some mt)
    (hres : lib.addFile file_path (groupChain lib) mt.name = true) :
    runScript lib (Except.ok u : Except E Unit) targets =
      (fallbackPrints targets ++ callEvents lib mt.name ++
        [Event.print ("Successfully added " ++ file_path ++ " to project"),
         Event.save (Except.ok u),
         Event.print "Project saved successfully"], none) := by
  unfold runScript
  rw [hmt]
  simp [hres]

lemma runScript_save_error {G E : Type} (lib : Lib G) (e : E)
    {targets : List Target} {mt : Target}
    (hmt : mainTarget targets = some mt)
    (hres : lib.addFile file_path (groupChain lib) mt.name = true) :
    runScript lib (Except.error e) targets =
      (fallbackPrints targets ++ callEvents lib mt.name ++
        [Event.print ("Successfully added " ++ file_path ++ " to project"),
         Event.save (Except.error e)], some e) := by
  unfold runScript
  rw [hmt]
  simp [hres]

lemma runScript_fail {G E : Type} (lib : Lib G) (saveRes : Except E Unit)
    {targets : List Target} {mt : Target}
    (hmt : mainTarget targets = some mt)
    (hres : lib.addFile file_path (groupChain lib) mt.name = false) :
    runScript lib saveRes targets =
      (fallbackPrints targets ++ callEvents lib mt.name ++
        [Event.print "Failed to add file - it may already exist in the project"],
       none) := by
  unfold runScript
  rw [hmt]
  simp [hres]

lemma runScript_nil {G E : Type} (lib : Lib G) (saveRes : Except E Unit) :
    runScript lib saveRes ([] : List Target)
      = ([Event.print "No target found in the project"], none) := rfl

lemma runScript_decomp {G E : Type} (lib : Lib G) (saveRes : Except E Unit)
    {targets : List Target} {mt : Target}
    (hmt : mainTarget targets = some mt) :
    ∃ tail, (runScript lib saveRes targets).1
      = fallbackPrints targets ++ callEvents lib mt.name ++ tail := by
  cases hr : lib.addFile file_path (groupChain lib) mt.name with
  | true =>
    cases saveRes with
    | ok u => exact ⟨_, by rw [runScript_ok lib u hmt hr]⟩
    | error e => exact ⟨_, by rw [runScript_save_error lib e hmt hr]⟩
  | false => exact ⟨_, by rw [runScript_fail lib saveRes hmt hr]⟩

lemma fallbackPrints_mem_print {G E : Type} {l : List Target} {ev : Event G E}
    (h : ev ∈ fallbackPrints (G := G) (E := E) l) :
    ∃ t : Target, ev = Event.print ("Using target: " ++ t.name) := by
  rcases fallbackPrints_cases (G := G) (E := E) l with hc | ⟨t, hc⟩ <;> rw [hc] at h
  · exact absurd h (List.not_mem_nil ev)
  · rw [List.mem_singleton] at h
    exact ⟨t, h⟩

lemma savedOk_fallbackPrints {G E : Type} (l : List Target) :
    (fallbackPrints (G := G) (E := E) l).any savedOk = false := by
  rcases fallbackPrints_cases (G := G) (E := E) l with hc | ⟨t, hc⟩ <;> rw [hc] <;> rfl

lemma savedOk_callEvents {G E : Type} (lib : Lib G) (tn : String) :
    (callEvents (G := G) (E := E) lib tn).any savedOk = false := rfl

/-- C1: for every target list containing at least one target whose name
equals "PodPeace", the target-selection step selects the first such target
in the stored iteration order (the list decomposes as a PodPeace-free
prefix followed by the selected target), and never a target of another
name. -/
theorem selects_podpeace (targets : List Target)
    (h : ∃ t ∈ targets, t.name = "PodPeace") :
    ∃ t l1 l2, mainTarget targets = some t ∧ t.name = "PodPeace" ∧
      targets = l1 ++ t :: l2 ∧ ∀ u ∈ l1, u.name ≠ "PodPeace" := by
  obtain ⟨t, l1, l2, hf, hn, he, hfirst⟩ := findPodPeace_spec targets h
  exact ⟨t, l1, l2, by simp [mainTarget, hf], hn, he, hfirst⟩

theorem selects_podpeace_witness :
    (∃ t ∈ [Target.mk "App", Target.mk "PodPeace", Target.mk "Tests"],
        t.name = "PodPeace") ∧
    ∃ t l1 l2,
      mainTarget [Target.mk "App", Target.mk "PodPeace", Target.mk "Tests"]
          = some t ∧
        t.name = "PodPeace" ∧
        [Target.mk "App", Target.mk "PodPeace", Target.mk "Tests"]
          = l1 ++ t :: l2 ∧
        ∀ u ∈ l1, u.name ≠ "PodPeace" :=
  ⟨⟨Target.mk "PodPeace", by decide, rfl⟩,
   selects_podpeace [Target.mk "App", Target.mk "PodPeace", Target.mk "Tests"]
     ⟨Target.mk "PodPeace", by decide, rfl⟩⟩

/-- C2: for every non-empty target list with no target named "PodPeace",
the script selects the first target in stored order and the run's trace
begins with the fallback announcement containing that target's name, before
any further event. -/
theorem fallback_selects_first {G E : Type} (lib : Lib G)
    (saveRes : Except E Unit) (t : Target) (ts : List Target)
    (h : findPodPeace (t :: ts) = none) :
    mainTarget (t :: ts) = some t ∧
    ∃ rest, (runScript lib saveRes (t :: ts)).1
      = Event.print ("Using target: " ++ t.name) :: rest := by
  have hmt : mainTarget (t :: ts) = some t := by simp [mainTarget, h]
  refine ⟨hmt, ?_⟩
  obtain ⟨tail, htr⟩ := runScript_decomp lib saveRes hmt
  refine ⟨callEvents lib t.name ++ tail, ?_⟩
  rw [htr, fallbackPrints_of_fallback h]
  rfl

theorem fallback_selects_first_witness :
    mainTarget [Target.mk "App", Target.mk "Helper"] = some (Target.mk "App") ∧
    ∃ rest, (runScript wLib (Except.ok () : Except Unit Unit)
        [Target.mk "App", Target.mk "Helper"]).1
      = Event.print ("Using target: " ++ (Target.mk "App").name) :: rest :=
  fallback_selects_first wLib (Except.ok ()) (Target.mk "App")
    [Target.mk "Helper"] (by decide)

/-- C5: for the empty target list, the run's output is exactly the
no-target message: no group-resolution event, no add-file event, no save
event, and the run terminates normally. -/
theorem empty_targets_message_only {G E : Type} (lib : Lib G)
    (saveRes : Except E Unit) :
    runScript lib saveRes ([] : List Target)
      = ([Event.print "No target found in the project"], none) :=
  runScript_nil lib saveRes

/-- C7: group resolution over the modelled library is idempotent: running
the PodPeace → Views → Episode resolution on a store in which the chain
already exists (in particular, on the store produced by a previous
resolution) returns the same Episode group and leaves the store unchanged,
creating no duplicate groups. -/
theorem resolveChain_idempotent (s : List Group) :
    resolveChain (resolveChain s).2 = ((resolveChain s).1, (resolveChain s).2) := by
  obtain ⟨g1, s1, h1⟩ : ∃ g1 s1, get_or_create_group "PodPeace" none s = (g1, s1) :=
    ⟨_, _, rfl⟩
  obtain ⟨g2, s2, h2⟩ : ∃ g2 s2, get_or_create_group "Views" (some g1.gid) s1 = (g2, s2) :=
    ⟨_, _, rfl⟩
  obtain ⟨g3, s3, h3⟩ : ∃ g3 s3, get_or_create_group "Episode" (some g2.gid) s2 = (g3, s3) :=
    ⟨_, _, rfl⟩
  have hres : resolveChain s = (g3, s3) := by
    simp only [resolveChain, h1, h2, h3]
  obtain ⟨l2, hl2⟩ := get_or_create_group_extend "Views" (some g1.gid) s1
  rw [h2] at hl2
  obtain ⟨l3, hl3⟩ := get_or_create_group_extend "Episode" (some g2.gid) s2
  rw [h3] at hl3
  dsimp only at hl2 hl3
  have f1 : s1.find? (groupMatches "PodPeace" none) = some g1 := by
    have hpost := find?_get_or_create "PodPeace" none s
    rw [h1] at hpost
    exact hpost
  have f2 : s2.find? (groupMatches "Views" (some g1.gid)) = some g2 := by
    have hpost := find?_get_or_create "Views" (some g1.gid) s1
    rw [h2] at hpost
    exact hpost
  have f3 : s3.find? (groupMatches "Episode" (some g2.gid)) = some g3 := by
    have hpost := find?_get_or_create "Episode" (some g2.gid) s2
    rw [h3] at hpost
    exact hpost
  have f1' : s3.find? (groupMatches "PodPeace" none) = some g1 := by
    rw [hl3, hl2, List.append_assoc]
    exact find?_append_some _ _ f1
  have f2' : s3.find? (groupMatches "Views" (some g1.gid)) = some g2 := by
    rw [hl3]
    exact find?_append_some _ _ f2
  rw [hres]
  simp only [resolveChain, get_or_create_group_reuse _ _ f1',
    get_or_create_group_reuse _ _ f2', get_or_create_group_reuse _ _ f3]

/-- C3: whenever `add_file` returns a falsy result with a target selected,
the run prints the may-already-exist message, issues no save call at all,
leaves the on-disk manifest unchanged (no successful save occurs in the
trace), and terminates normally. -/
theorem addfile_falsy_no_save {G E : Type} (lib : Lib G)
    (saveRes : Except E Unit) (targets : List Target) (mt : Target)
    (hmt : mainTarget targets = some mt)
    (hres : lib.addFile file_path (groupChain lib) mt.name = false) :
    Event.print "Failed to add file - it may already exist in the project"
      ∈ (runScript lib saveRes targets).1 ∧
    (∀ ev ∈ (runScript lib saveRes targets).1, isSave ev = false) ∧
    diskMutated (runScript lib saveRes targets).1 = false ∧
    (runScript lib saveRes targets).2 = none := by
  rw [runScript_fail lib saveRes hmt hres]
  refine ⟨by simp, ?_, ?_, rfl⟩
  · intro ev hev
    rcases List.mem_append.mp hev with hev' | htail
    · rcases List.mem_append.mp hev' with hfb | hcall
      · obtain ⟨t, rfl⟩ := fallbackPrints_mem_print hfb
        rfl
      · simp only [callEvents, List.mem_cons, List.not_mem_nil, or_false] at hcall
        rcases hcall with rfl | rfl | rfl | rfl <;> rfl
    · rw [List.mem_singleton] at htail
      rw [htail]
      rfl
  · unfold diskMutated
    rw [List.any_append, List.any_append, savedOk_fallbackPrints,
      savedOk_callEvents]
    rfl

theorem addfile_falsy_no_save_witness :
    Event.print (G := Nat) (E := Unit)
        "Failed to add file - it may already exist in the project"
      ∈ (runScript wLibFalse (Except.ok () : Except Unit Unit)
          [Target.mk "PodPeace"]).1 ∧
    (∀ ev ∈ (runScript wLibFalse (Except.ok () : Except Unit Unit)
        [Target.mk "PodPeace"]).1, isSave ev = false) ∧
    diskMutated (runScript wLibFalse (Except.ok () : Except Unit Unit)
        [Target.mk "PodPeace"]).1 = false ∧
    (runScript wLibFalse (Except.ok () : Except Unit Unit)
        [Target.mk "PodPeace"]).2 = none :=
  addfile_falsy_no_save wLibFalse (Except.ok ()) [Target.mk "PodPeace"]
    (Target.mk "PodPeace") (by decide) rfl

/-- C4: whenever `add_file` returns a truthy result with a target selected
and `save` returns normally, the run issues the save call and prints the
two success messages in order, the added-file message before the save call
and the project-saved message after it. -/
theorem addfile_truthy_saves {G E : Type} (lib : Lib G) (u : Unit)
    (targets : List Target) (mt : Target)
    (hmt : mainTarget targets = some mt)
    (hres : lib.addFile file_path (groupChain lib) mt.name = true) :
    runScript lib (Except.ok u : Except E Unit) targets
      = (fallbackPrints targets ++ callEvents lib mt.name ++
         [Event.print ("Successfully added " ++ file_path ++ " to project"),
          Event.save (Except.ok u),
          Event.print "Project saved successfully"], none) :=
  runScript_ok lib u hmt hres

theorem addfile_truthy_saves_witness :
    runScript wLib (Except.ok () : Except Unit Unit) [Target.mk "PodPeace"]
      = (fallbackPrints [Target.mk "PodPeace"] ++
         callEvents wLib (Target.mk "PodPeace").name ++
         [Event.print ("Successfully added " ++ file_path ++ " to project"),
          Event.save (Except.ok ()),
          Event.print "Project saved successfully"], none) :=
  addfile_truthy_saves wLib () [Target.mk "PodPeace"] (Target.mk "PodPeace")
    (by decide) rfl

/-- C6: in every run that reaches file registration, the trace records the
three get-or-create calls in nesting order (PodPeace at top level, Views
under the PodPeace group, Episode under the Views group), followed by the
add-file call whose parent is the Episode group, whose path is the fixed
literal, and whose target name is the selected target's name. -/
theorem registration_group_nesting {G E : Type} (lib : Lib G)
    (saveRes : Except E Unit) (targets : List Target) (mt : Target)
    (hmt : mainTarget targets = some mt) :
    ∃ tail, (runScript lib saveRes targets).1
      = fallbackPrints targets ++
        [Event.getGroup "PodPeace" none (lib.getOrCreateGroup "PodPeace" none),
         Event.getGroup "Views" (some (lib.getOrCreateGroup "PodPeace" none))
           (lib.getOrCreateGroup "Views"
             (some (lib.getOrCreateGroup "PodPeace" none))),
         Event.getGroup "Episode"
           (some (lib.getOrCreateGroup "Views"
             (some (lib.getOrCreateGroup "PodPeace" none))))
           (lib.getOrCreateGroup "Episode"
             (some (lib.getOrCreateGroup "Views"
               (some (lib.getOrCreateGroup "PodPeace" none))))),
         Event.addFile "PodPeace/Views/Episode/EpisodeDetailView.swift"
           (lib.getOrCreateGroup "Episode"
             (some (lib.getOrCreateGroup "Views"
               (some (lib.getOrCreateGroup "PodPeace" none)))))
           mt.name
           (lib.addFile file_path (groupChain lib) mt.name)] ++ tail := by
  obtain ⟨tail, htr⟩ := runScript_decomp lib saveRes hmt
  exact ⟨tail, by rw [htr]; rfl⟩

theorem registration_group_nesting_witness :
    ∃ tail, (runScript wLib (Except.ok () : Except Unit Unit)
        [Target.mk "PodPeace"]).1
      = fallbackPrints [Target.mk "PodPeace"] ++
        [Event.getGroup "PodPeace" none (wLib.getOrCreateGroup "PodPeace" none),
         Event.getGroup "Views" (some (wLib.getOrCreateGroup "PodPeace" none))
           (wLib.getOrCreateGroup "Views"
             (some (wLib.getOrCreateGroup "PodPeace" none))),
         Event.getGroup "Episode"
           (some (wLib.getOrCreateGroup "Views"
             (some (wLib.getOrCreateGroup "PodPeace" none))))
           (wLib.getOrCreateGroup "Episode"
             (some (wLib.getOrCreateGroup "Views"
               (some (wLib.getOrCreateGroup "PodPeace" none))))),
         Event.addFile "PodPeace/Views/Episode/EpisodeDetailView.swift"
           (wLib.getOrCreateGroup "Episode"
             (some (wLib.getOrCreateGroup "Views"
               (some (wLib.getOrCreateGroup "PodPeace" none)))))
           (Target.mk "PodPeace").name
           (wLib.addFile file_path (groupChain wLib)
             (Target.mk "PodPeace").name)] ++ tail :=
  registration_group_nesting wLib (Except.ok ()) [Target.mk "PodPeace"]
    (Target.mk "PodPeace") (by decide)

/-- C8: the save call is not wrapped by any error handling: when `save`
raises, the error propagates out of the run uncaught; and the on-disk
manifest mutates only in runs where the add-file call succeeded and the
save call returned successfully. -/
theorem save_error_propagates {G E : Type} (lib : Lib G)
    (targets : List Target) (mt : Target) (e : E)
    (hmt : mainTarget targets = some mt)
    (hres : lib.addFile file_path (groupChain lib) mt.name = true) :
    (runScript lib (Except.error e) targets).2 = some e ∧
    diskMutated (runScript lib (Except.error e) targets).1 = false ∧
    ∀ saveRes : Except E Unit,
      diskMutated (runScript lib saveRes targets).1 = true →
        addFileSucceeded (runScript lib saveRes targets).1 = true ∧
        ∃ u, saveRes = Except.ok u := by
  refine ⟨by rw [runScript_save_error lib e hmt hres], ?_, ?_⟩
  · rw [runScript_save_error lib e hmt hres]
    unfold diskMutated
    rw [List.any_append, List.any_append, savedOk_fallbackPrints,
      savedOk_callEvents]
    rfl
  · intro saveRes hdm
    cases saveRes with
    | ok u =>
      refine ⟨?_, u, rfl⟩
      rw [runScript_ok lib u hmt hres]
      unfold addFileSucceeded
      simp [List.any_append, callEvents, hres]
    | error e' =>
      exfalso
      rw [runScript_save_error lib e' hmt hres] at hdm
      unfold diskMutated at hdm
      rw [List.any_append, List.any_append, savedOk_fallbackPrints,
        savedOk_callEvents] at hdm
      simp [savedOk] at hdm

theorem save_error_propagates_witness :
    (runScript wLib (Except.error () : Except Unit Unit)
        [Target.mk "PodPeace"]).2 = some () ∧
    diskMutated (runScript wLib (Except.error () : Except Unit Unit)
        [Target.mk "PodPeace"]).1 = false ∧
    ∀ saveRes : Except Unit Unit,
      diskMutated (runScript wLib saveRes [Target.mk "PodPeace"]).1 = true →
        addFileSucceeded (runScript wLib saveRes [Target.mk "PodPeace"]).1
            = true ∧
        ∃ u, saveRes = Except.ok u :=
  save_error_propagates wLib [Target.mk "PodPeace"] (Target.mk "PodPeace") ()
    (by decide) rfl

/-- C9: the fallback announcement line ("Using target: " followed by some
name) occurs in the run's trace if and only if the target list is non-empty
and contains no target named "PodPeace"; in particular it is never printed
when a "PodPeace" target exists. -/
theorem fallback_print_iff {G E : Type} (lib : Lib G) (saveRes : Except E Unit)
    (targets : List Target) :
    (∃ s, Event.print (G := G) (E := E) ("Using target: " ++ s)
        ∈ (runScript lib saveRes targets).1)
      ↔ targets ≠ [] ∧ findPodPeace targets = none := by
  have n1 : ∀ s' : String,
      "Using target: " ++ s' ≠ "Successfully added " ++ file_path ++ " to project" :=
    fun s' => using_target_ne s' _ (by decide)
  have n2 : ∀ s' : String,
      "Using target: " ++ s' ≠ "Project saved successfully" :=
    fun s' => using_target_ne s' _ (by decide)
  have n3 : ∀ s' : String,
      "Using target: " ++ s' ≠ "Failed to add file - it may already exist in the project" :=
    fun s' => using_target_ne s' _ (by decide)
  have n4 : ∀ s' : String,
      "Using target: " ++ s' ≠ "No target found in the project" :=
    fun s' => using_target_ne s' _ (by decide)
  constructor
  · rintro ⟨s, hs⟩
    cases targets with
    | nil =>
      exfalso
      rw [runScript_nil lib saveRes] at hs
      rw [List.mem_singleton] at hs
      injection hs with hstr
      exact n4 s hstr
    | cons t ts =>
      cases hf : findPodPeace (t :: ts) with
      | none => exact ⟨List.cons_ne_nil t ts, rfl⟩
      | some u =>
        exfalso
        have hmt : mainTarget (t :: ts) = some u := by simp [mainTarget, hf]
        have hfb := fallbackPrints_of_found (G := G) (E := E) hf
        cases hr : lib.addFile file_path (groupChain lib) u.name with
        | true =>
          cases saveRes with
          | ok v =>
            rw [runScript_ok lib v hmt hr, hfb] at hs
            simp [callEvents, n1 s, n2 s] at hs
          | error e' =>
            rw [runScript_save_error lib e' hmt hr, hfb] at hs
            simp [callEvents, n1 s] at hs
        | false =>
          rw [runScript_fail lib saveRes hmt hr, hfb] at hs
          simp [callEvents, n3 s] at hs
  · rintro ⟨hne, hf⟩
    cases targets with
    | nil => exact absurd rfl hne
    | cons t ts =>
      have hmt : mainTarget (t :: ts) = some t := by simp [mainTarget, hf]
      obtain ⟨tail, htr⟩ := runScript_decomp lib saveRes hmt
      refine ⟨t.name, ?_⟩
      rw [htr, fallbackPrints_of_fallback hf]
      simp

/-- C10: in every successful-registration run, the added-file message is
printed strictly before the save call and the project-saved message only
after the save call returns; when the save call raises instead, the
added-file message has already been printed and the project-saved message
never occurs in the trace. -/
theorem success_message_ordering {G E : Type} (lib : Lib G)
    (targets : List Target) (mt : Target)
    (hmt : mainTarget targets = some mt)
    (hres : lib.addFile file_path (groupChain lib) mt.name = true) :
    (∀ u : Unit, (runScript lib (Except.ok u : Except E Unit) targets).1
        = fallbackPrints targets ++ callEvents lib mt.name ++
          [Event.print ("Successfully added " ++ file_path ++ " to project"),
           Event.save (Except.ok u),
           Event.print "Project saved successfully"]) ∧
    ∀ e : E, (runScript lib (Except.error e) targets).1
        = fallbackPrints targets ++ callEvents lib mt.name ++
          [Event.print ("Successfully added " ++ file_path ++ " to project"),
           Event.save (Except.error e)] ∧
      Event.print "Project saved successfully"
        ∉ (runScript lib (Except.error e) targets).1 := by
  refine ⟨fun u => by rw [runScript_ok lib u hmt hres], fun e => ?_⟩
  refine ⟨by rw [runScript_save_error lib e hmt hres], ?_⟩
  rw [runScript_save_error lib e hmt hres]
  intro hmem
  rcases List.mem_append.mp hmem with hmem' | htail
  · rcases List.mem_append.mp hmem' with hfb | hcall
    · obtain ⟨t, ht⟩ := fallbackPrints_mem_print hfb
      injection ht with hstr
      exact using_target_ne t.name _ (by decide) hstr.symm
    · simp [callEvents] at hcall
  · have hne : "Project saved successfully"
        ≠ "Successfully added " ++ file_path ++ " to project" := by decide
    simp [hne] at htail

theorem success_message_ordering_witness :
    (∀ u : Unit, (runScript wLib (Except.ok u : Except Unit Unit)
          [Target.mk "PodPeace"]).1
        = fallbackPrints [Target.mk "PodPeace"] ++
          callEvents wLib (Target.mk "PodPeace").name ++
          [Event.print ("Successfully added " ++ file_path ++ " to project"),
           Event.save (Except.ok u),
           Event.print "Project saved successfully"]) ∧
    ∀ e : Unit, (runScript wLib (Except.error e) [Target.mk "PodPeace"]).1
        = fallbackPrints [Target.mk "PodPeace"] ++
          callEvents wLib (Target.mk "PodPeace").name ++
          [Event.print ("Successfully added " ++ file_path ++ " to project"),
           Event.save (Except.error e)] ∧
      Event.print "Project saved successfully"
        ∉ (runScript wLib (Except.error e) [Target.mk "PodPeace"]).1 :=
  success_message_ordering wLib [Target.mk "PodPeace"] (Target.mk "PodPeace")
    (by decide) rfl

end Podcash
